import Mathlib

/-!
Verification of the evolutionary search engine in `src/ga.py` (class `G2A`).

The shallow embedding below translates the data model and operations of
`ga.py` into Lean: Python dictionaries holding an individual become a
structure whose optional fields model present/absent dictionary keys,
Python floats become `PyFloat` (rationals plus the IEEE special values,
with exact instead of rounded arithmetic), exceptions become `Option` /
`Except` results or an explicit "raised" flag next to the partially
mutated state, and external effects (the generative model, the spawned
evaluation processes, the filesystem, the random number generator) become
explicit environment parameters.
-/

set_option maxHeartbeats 1000000

namespace GA

/-- Python float values as used by `ga.py`.  Rationals stand in for IEEE
doubles, so finite arithmetic is exact rather than rounded; `inf`, `ninf`
and `nan` model `float("inf")`, `float("-inf")` and `float("nan")`. -/
inductive PyFloat where
  | fin (q : ℚ)
  | inf
  | ninf
  | nan
deriving DecidableEq

/-- Python `<` on floats; every comparison involving `nan` is false. -/
def PyFloat.lt : PyFloat → PyFloat → Bool
  | .fin a, .fin b => decide (a < b)
  | .fin _, .inf => true
  | .ninf, .fin _ => true
  | .ninf, .inf => true
  | _, _ => false

/-- Python `<=` on floats; every comparison involving `nan` is false. -/
def PyFloat.le : PyFloat → PyFloat → Bool
  | .fin a, .fin b => decide (a ≤ b)
  | .fin _, .inf => true
  | .inf, .inf => true
  | .ninf, .fin _ => true
  | .ninf, .inf => true
  | .ninf, .ninf => true
  | _, _ => false

/-- Python `math.isnan`. -/
def PyFloat.isNan : PyFloat → Bool
  | .nan => true
  | _ => false

/-- Python `1 / x` for a float `x`.  In the source this expression is only
evaluated after the assertion `obj > 0` has succeeded, so `x` is a positive
rational or `inf` there; the remaining cases are given their IEEE values
(`1 / inf = 0`, `1 / nan = nan`) for totality. -/
def PyFloat.oneDiv : PyFloat → PyFloat
  | .fin q => .fin (1 / q)
  | .inf => .fin 0
  | .ninf => .fin 0
  | .nan => .nan

theorem PyFloat.le_refl_of_notNan {x : PyFloat} (h : x.isNan = false) :
    x.le x = true := by
  cases x <;> simp_all [PyFloat.le, PyFloat.isNan]

theorem PyFloat.le_trans' {x y z : PyFloat} (h1 : x.le y = true)
    (h2 : y.le z = true) : x.le z = true := by
  cases x <;> cases y <;> cases z <;> simp_all [PyFloat.le] <;> linarith

theorem PyFloat.lt_le {x y : PyFloat} (h : x.lt y = true) : x.le y = true := by
  cases x <;> cases y <;> simp_all [PyFloat.lt, PyFloat.le] <;> linarith

theorem PyFloat.le_of_not_lt' {x y : PyFloat} (hx : x.isNan = false)
    (hy : y.isNan = false) (h : y.lt x = false) : x.le y = true := by
  cases x <;> cases y <;> simp_all [PyFloat.lt, PyFloat.le, PyFloat.isNan] <;> linarith

/-- Python's builtin `min` on a list (`min(objs)` in `update_iter` and
`init_population`): scan with `<`, first minimum wins, `ValueError`
(modelled as `none`) on the empty list. -/
def pythonMinList : List PyFloat → Option PyFloat
  | [] => none
  | x :: xs => some (xs.foldl (fun m y => if y.lt m then y else m) x)

theorem foldlMin_mem (xs : List PyFloat) : ∀ x : PyFloat,
    xs.foldl (fun m y => if y.lt m then y else m) x ∈ x :: xs := by
  induction xs with
  | nil => intro x; simp
  | cons y ys ih =>
    intro x
    simp only [List.foldl_cons]
    rcases List.mem_cons.mp (ih (if y.lt x then y else x)) with h | h
    · rw [h]
      by_cases hc : y.lt x
      · rw [if_pos hc]; simp
      · rw [if_neg hc]; simp
    · simp [List.mem_cons, h]

theorem foldlMin_le (xs : List PyFloat) : ∀ x : PyFloat,
    (∀ z ∈ x :: xs, z.isNan = false) →
    ∀ z ∈ x :: xs, (xs.foldl (fun m y => if y.lt m then y else m) x).le z = true := by
  induction xs with
  | nil =>
    intro x hn z hz
    simp only [List.mem_singleton] at hz
    subst hz
    exact PyFloat.le_refl_of_notNan (hn z (by simp))
  | cons y ys ih =>
    intro x hn z hz
    have hx : x.isNan = false := hn x (by simp)
    have hy : y.isNan = false := hn y (by simp)
    have hys : ∀ w ∈ ys, w.isNan = false := fun w hw => hn w (by simp [hw])
    simp only [List.foldl_cons]
    by_cases hc : y.lt x
    · rw [if_pos hc]
      have key := ih y (by
        intro w hw
        rcases List.mem_cons.mp hw with h | h
        · rw [h]; exact hy
        · exact hys w h)
      rcases List.mem_cons.mp hz with h | h
      · rw [h]
        exact PyFloat.le_trans' (key y (by simp)) (PyFloat.lt_le hc)
      · rcases List.mem_cons.mp h with h2 | h2
        · rw [h2]; exact key y (by simp)
        · exact key z (by simp [h2])
    · rw [if_neg hc]
      have hcf : y.lt x = false := by simpa using hc
      have key := ih x (by
        intro w hw
        rcases List.mem_cons.mp hw with h | h
        · rw [h]; exact hx
        · exact hys w h)
      rcases List.mem_cons.mp hz with h | h
      · rw [h]; exact key x (by simp)
      · rcases List.mem_cons.mp h with h2 | h2
        · rw [h2]
          exact PyFloat.le_trans' (key x (by simp)) (PyFloat.le_of_not_lt' hx hy hcf)
        · exact key z (by simp [h2])

/-- Auxiliary scan for `np.argmin`: carries the current best value and its
index, updating both on a strict `<`. -/
def npArgminAux : List PyFloat → PyFloat → ℕ → ℕ → ℕ × PyFloat
  | [], m, _, best => (best, m)
  | y :: ys, m, i, best =>
    if y.lt m then npArgminAux ys y (i + 1) i else npArgminAux ys m (i + 1) best

/-- Embeds `np.argmin(np.array(objs))` in `update_iter` and `init_population`:
index of the first minimum under the `<` scan.  The objective lists produced
by `evaluate_population` never contain `nan` (they are positive rationals or
`inf`), and on `nan`-free input this scan agrees with numpy. -/
def npArgmin : List PyFloat → ℕ
  | [] => 0
  | x :: xs => (npArgminAux xs x 1 0).1

theorem npArgminAux_snd (xs : List PyFloat) : ∀ (m : PyFloat) (i best : ℕ),
    (npArgminAux xs m i best).2 = xs.foldl (fun m y => if y.lt m then y else m) m := by
  induction xs with
  | nil => intro m i best; rfl
  | cons y ys ih =>
    intro m i best
    simp only [npArgminAux, List.foldl_cons]
    by_cases h : y.lt m <;> simp [h, ih]

theorem npArgminAux_fst (xs : List PyFloat) : ∀ (m : PyFloat) (i best : ℕ),
    ((npArgminAux xs m i best).1 = best ∧ (npArgminAux xs m i best).2 = m) ∨
    (∃ k, k < xs.length ∧ (npArgminAux xs m i best).1 = i + k ∧
      (npArgminAux xs m i best).2 = xs.getD k PyFloat.nan) := by
  induction xs with
  | nil => intro m i best; left; exact ⟨rfl, rfl⟩
  | cons y ys ih =>
    intro m i best
    by_cases h : y.lt m
    · simp only [npArgminAux, h, if_pos]
      rcases ih y (i + 1) i with ⟨h1, h2⟩ | ⟨k, hk, h1, h2⟩
      · right
        exact ⟨0, by simp, by simpa using h1, by simpa using h2⟩
      · right
        refine ⟨k + 1, by simpa using hk, ?_, by simpa using h2⟩
        omega
    · simp only [npArgminAux, h, if_neg, Bool.false_eq_true, not_false_iff]
      rcases ih m (i + 1) best with ⟨h1, h2⟩ | ⟨k, hk, h1, h2⟩
      · left; exact ⟨h1, h2⟩
      · right
        refine ⟨k + 1, by simpa using hk, ?_, by simpa using h2⟩
        omega

/-- The `np.argmin` index is in range and points at the value returned by
Python's `min` over the same list. -/
theorem npArgmin_getD (x : PyFloat) (xs : List PyFloat) :
    npArgmin (x :: xs) < (x :: xs).length ∧
    pythonMinList (x :: xs) = some ((x :: xs).getD (npArgmin (x :: xs)) PyFloat.nan) := by
  have hsnd := npArgminAux_snd xs x 1 0
  rcases npArgminAux_fst xs x 1 0 with ⟨h1, h2⟩ | ⟨k, hk, h1, h2⟩
  · constructor
    · simp [npArgmin, h1]
    · simp only [npArgmin, pythonMinList, h1]
      rw [← hsnd, h2]
      simp
  · constructor
    · simp only [npArgmin, h1, List.length_cons]
      omega
    · simp only [npArgmin, pythonMinList, h1]
      rw [← hsnd, h2]
      have : (x :: xs).getD (1 + k) PyFloat.nan = xs.getD k PyFloat.nan := by
        have h1k : 1 + k = k + 1 := by omega
        rw [h1k]
        simp [List.getD_cons_succ]
      rw [this]

/-- Python exceptions that can escape the embedded operations. -/
inductive PyErr where
  | keyError
  | valueError
  | typeError
  | attributeError
  | assertionError
deriving DecidableEq

/-- One individual of the population: a Python dict in `ga.py`.
`response_to_individual` (lines 115-120) always creates the keys
`stdout_filepath`, `code_path`, `code` and `response_id`, so they are plain
fields (`code` itself can hold Python `None` when no code block was
extracted, hence `Option String`).  The remaining keys are only written
later — by the scoring in `evaluate_population` or by
`mark_invalid_individual` — and are therefore `Option` fields whose `none`
models an absent dictionary key (reading it raises `KeyError`).
`description` is never written anywhere in `ga.py`. -/
structure Ind where
  stdout_filepath : String
  code_path : String
  code : Option String
  response_id : ℕ
  description : Option String := none
  obj : Option PyFloat := none
  fitness : Option PyFloat := none
  exec_success : Option Bool := none
  traceback_msg : Option String := none
deriving DecidableEq

def Ind.dummy : Ind :=
  { stdout_filepath := "", code_path := "", code := none, response_id := 0 }

/-- Embeds `mark_invalid_individual` (lines 135-144): sets `exec_success = False`,
`obj = float("inf")`, `fitness = 0` and stores the failure message. -/
def mark_invalid_individual (individual : Ind) (traceback_msg : String) : Ind :=
  { individual with
    exec_success := some false,
    obj := some PyFloat.inf,
    fitness := some (PyFloat.fin 0),
    traceback_msg := some traceback_msg }

/-- Embeds `response_to_individual` (lines 102-122).  `process_code` is the code
extractor from `utils/utils.py` (not under `src/`), kept abstract.  When it
returns `None`, the statement `file.writelines(code + chr(10))` on line 110
raises `TypeError` (`None + str`), so no individual is produced; otherwise
the individual carries exactly the keys `stdout_filepath`, `code_path`,
`code` and `response_id`.  Note that `file_name` is reassigned before the
`std_out_filepath` conditional, so that conditional's `None` branch is dead
and the stdout path always extends the (reassigned) response file name. -/
def response_to_individual (process_code : String → Option String) (iteration : ℕ)
    (response : String) (response_id : ℕ) (file_name : Option String) : Except PyErr Ind :=
  match process_code response with
  | none => .error .typeError
  | some c =>
    let fname :=
      match file_name with
      | none => "problem_iter" ++ toString iteration ++ "_response" ++ toString response_id ++ ".txt"
      | some n => n ++ ".txt"
    let std_out_filepath := fname ++ "_stdout.txt"
    .ok { stdout_filepath := std_out_filepath,
          code_path := "problem_iter" ++ toString iteration ++ "_code" ++ toString response_id ++ ".py",
          code := some c,
          response_id := response_id }

/-- Numeric value of a digit string. -/
def digitsVal (cs : List Char) : ℕ :=
  cs.foldl (fun acc c => 10 * acc + (c.toNat - 48)) 0

/-- Exponent part of a Python float literal, after the `e`: optional sign
followed by at least one digit. -/
def expVal : List Char → Option ℤ
  | [] => none
  | c :: rest =>
    let sgn : ℤ := if c = '-' then -1 else 1
    let ds := if c = '-' ∨ c = '+' then rest else c :: rest
    if ds ≠ [] ∧ ds.all Char.isDigit then some (sgn * (digitsVal ds : ℤ)) else none

/-- Mantissa of a Python float literal: digits with an optional fractional
part, at least one digit overall; returns the value and the unconsumed rest. -/
def mantissaAndRest (cs : List Char) : Option (ℚ × List Char) :=
  let ip := cs.takeWhile Char.isDigit
  let r1 := cs.drop ip.length
  match r1 with
  | c :: r2 =>
    if c = '.' then
      let fp := r2.takeWhile Char.isDigit
      let r3 := r2.drop fp.length
      if ip.length = 0 ∧ fp.length = 0 then none
      else some ((digitsVal ip : ℚ) + (digitsVal fp : ℚ) / (10 : ℚ) ^ fp.length, r3)
    else if ip.length = 0 then none
    else some ((digitsVal ip : ℚ), r1)
  | [] => if ip.length = 0 then none else some ((digitsVal ip : ℚ), [])

/-- Unsigned Python float literal: mantissa with optional exponent, fully
consumed. -/
def parseUnsigned (cs : List Char) : Option ℚ :=
  match mantissaAndRest cs with
  | none => none
  | some (m, rest) =>
    match rest with
    | [] => some m
    | c :: r2 =>
      if c = 'e' ∨ c = 'E' then
        match expVal r2 with
        | none => none
        | some e => some (m * (10 : ℚ) ^ e)
      else none

/-- Whitespace characters stripped by Python's float parsing. -/
def isSpaceChar (c : Char) : Bool :=
  c = ' ' ∨ c = '\t' ∨ c = '\n' ∨ c = '\r' ∨ c = '\x0b' ∨ c = '\x0c'

/-- Strip leading and trailing whitespace. -/
def trimChars (cs : List Char) : List Char :=
  ((cs.dropWhile isSpaceChar).reverse.dropWhile isSpaceChar).reverse

/-- Models Python's builtin `float(str)` constructor: optional surrounding
whitespace, an optional sign, then `inf` / `infinity` / `nan`
(case-insensitive, per Python float semantics) or a decimal literal with
optional fraction and exponent.  `none` models a raised `ValueError`.
Rationals stand in for IEEE doubles, so finite values are exact rather than
rounded; underscore digit separators are not modelled. -/
def pyFloatOfString (s : String) : Option PyFloat :=
  let cs := trimChars s.toList
  let neg : Bool :=
    match cs with
    | c :: _ => c = '-'
    | [] => false
  let body : List Char :=
    match cs with
    | c :: rest => if c = '-' ∨ c = '+' then rest else cs
    | [] => []
  let low := String.mk (body.map Char.toLower)
  if low = "inf" ∨ low = "infinity" then some (if neg then PyFloat.ninf else PyFloat.inf)
  else if low = "nan" then some PyFloat.nan
  else
    match parseUnsigned body with
    | none => none
    | some q => some (PyFloat.fin (if neg then -q else q))

/-- Python `str.split` on the newline character. -/
def splitLines : List Char → List (List Char)
  | [] => [[]]
  | c :: rest =>
    let r := splitLines rest
    if c = '\n' then [] :: r
    else
      match r with
      | [] => [[c]]
      | h :: t => (c :: h) :: t

/-- Python `stdout_str.split(chr(10))[-2]` from line 193: `none` models the
`IndexError` raised when the split yields fewer than two pieces (which the
surrounding bare `except` turns into an invalid-objective failure). -/
def pySplitPenultimate (s : String) : Option String :=
  match (splitLines s.toList).reverse with
  | _ :: b :: _ => some (String.mk b)
  | _ => none

/-- Does `cs` start with the pattern `pat`? -/
def startsWithSeq : List Char → List Char → Bool
  | _, [] => true
  | [], _ :: _ => false
  | c :: cs, p :: ps => c = p && startsWithSeq cs ps

/-- The suffix of `cs` from the first occurrence of `pat`, if any. -/
def suffixFromSeq (pat : List Char) : List Char → Option (List Char)
  | [] => if startsWithSeq [] pat then some [] else none
  | c :: rest =>
    if startsWithSeq (c :: rest) pat then some (c :: rest)
    else suffixFromSeq pat rest

/-- Modelled from the spec: `filter_traceback` lives in `utils/utils.py`,
which is not under `src/`.  Per the spec's Result Classifier contract it
returns a non-empty filtered error message when the capture contains a
traceback/error marker and the empty string otherwise.  This model keeps
the capture's suffix from the first `Traceback` marker on.  It is used
only to build concrete environments; the general theorems keep the filter
abstract. -/
def filter_traceback_model (s : String) : String :=
  match suffixFromSeq ("Traceback".toList) s.toList with
  | none => ""
  | some tail => String.mk tail

/-- Lines 183-201 of `evaluate_population`: read the individual's stdout
capture, filter the traceback, and either score the individual
(`obj = float(second-to-last line)`, asserted `> 0`, `fitness = 1 / obj`,
`exec_success = True`) or mark it invalid.  A parse failure, an index error
on the split, or a failed positivity assertion are all caught by the bare
`except` and become the "Invalid std out / objective value!" failure.
`tbFilter` abstracts `filter_traceback` from `utils/utils.py` (not under
`src/`). -/
def classifyStdout (tbFilter : String → String) (stdout_str : String) (individual : Ind) : Ind :=
  let traceback_msg := tbFilter stdout_str
  if traceback_msg = "" then
    match pySplitPenultimate stdout_str with
    | none => mark_invalid_individual individual ("Invalid std out / objective value!")
    | some line =>
      match pyFloatOfString line with
      | none => mark_invalid_individual individual ("Invalid std out / objective value!")
      | some v =>
        if (PyFloat.fin 0).lt v then
          { individual with obj := some v, fitness := some v.oneDiv, exec_success := some true }
        else mark_invalid_individual individual ("Invalid std out / objective value!")
  else mark_invalid_individual individual traceback_msg

/-- Environment of one `evaluate_population` call: the outcome of `run_code`
per response id (`some msg` = the launch raised an exception with message
`msg`), the outcome of `process.communicate(timeout=20)` per response id
(`some msg` = `subprocess.TimeoutExpired` with message `msg`), the contents
of each stdout capture file by path, and the `filter_traceback` function
from `utils/utils.py` (not under `src/`), kept abstract. -/
structure ExecEnv where
  launch : ℕ → Option String
  wait : ℕ → Option String
  stdoutFile : String → String
  tbFilter : String → String

/-- First loop of `evaluate_population` (lines 152-169) for one individual:
a `None` code is marked invalid ("Invalid response!") before the
`function_evals` increment and without calling `run_code`; otherwise
`function_evals` is incremented (second component `true`) and `run_code` is
attempted, a raised exception marking the individual invalid with the
exception's message.  Third component: whether a process handle was stored
in `inner_runs`. -/
def launchOne (env : ExecEnv) (response_id : ℕ) (individual : Ind) : Ind × Bool × Bool :=
  match individual.code with
  | none => (mark_invalid_individual individual ("Invalid response!"), false, false)
  | some _ =>
    match env.launch response_id with
    | none => (individual, true, true)
    | some e => (mark_invalid_individual individual e, true, false)

/-- Instrumentation of the second loop, per individual: the deadlines of the
`communicate` calls issued for it, and whether its process was killed. -/
structure WaitTrace where
  waits : List ℕ
  killed : Bool
deriving DecidableEq

def WaitTrace.dummy : WaitTrace := { waits := [], killed := false }

/-- Second loop of `evaluate_population` (lines 172-202) for one individual:
entries without a process handle are skipped; otherwise the process is
waited on once with `communicate(timeout=20)`; on `TimeoutExpired` the
individual is marked invalid with the exception's message and the process
is killed; on completion the stdout capture is classified. -/
def waitOne (env : ExecEnv) (response_id : ℕ) (individual : Ind) (handle : Bool) : Ind × WaitTrace :=
  if handle then
    match env.wait response_id with
    | some msg => (mark_invalid_individual individual msg, { waits := [20], killed := true })
    | none =>
      (classifyStdout env.tbFilter (env.stdoutFile individual.stdout_filepath) individual,
        { waits := [20], killed := false })
  else (individual, WaitTrace.dummy)

/-- A `List` map that also passes the element's position, starting at `n`. -/
def idxMapFrom {α β : Type} (f : ℕ → α → β) : ℕ → List α → List β
  | _, [] => []
  | n, a :: as => f n a :: idxMapFrom f (n + 1) as

def idxMap {α β : Type} (f : ℕ → α → β) (l : List α) : List β := idxMapFrom f 0 l

theorem length_idxMapFrom {α β : Type} (f : ℕ → α → β) :
    ∀ (n : ℕ) (l : List α), (idxMapFrom f n l).length = l.length := by
  intro n l
  induction l generalizing n with
  | nil => rfl
  | cons a as ih => simp [idxMapFrom, ih]

theorem getD_idxMapFrom {α β : Type} (f : ℕ → α → β) (d : β) (dA : α) :
    ∀ (l : List α) (n i : ℕ), i < l.length →
      (idxMapFrom f n l).getD i d = f (n + i) (l.getD i dA) := by
  intro l
  induction l with
  | nil => intro n i h; simp at h
  | cons a as ih =>
    intro n i h
    cases i with
    | zero => rfl
    | succ j =>
      simp only [idxMapFrom, List.getD_cons_succ]
      rw [ih (n + 1) j (by simpa using h)]
      congr 1
      omega

theorem getD_map' {α β : Type} (f : α → β) (d : β) (dA : α) :
    ∀ (l : List α) (i : ℕ), i < l.length → (l.map f).getD i d = f (l.getD i dA) := by
  intro l
  induction l with
  | nil => intro i h; simp at h
  | cons a as ih =>
    intro i h
    cases i with
    | zero => rfl
    | succ j =>
      simp only [List.map_cons, List.getD_cons_succ]
      exact ih j (by simpa using h)

theorem count_true_idxMapFrom {α β : Type} (p : α → Bool) (f : ℕ → α → β) (g : β → Bool)
    (hfg : ∀ i a, g (f i a) = p a) :
    ∀ (n : ℕ) (l : List α), ((idxMapFrom f n l).map g).count true = l.countP p := by
  intro n l
  induction l generalizing n with
  | nil => rfl
  | cons a as ih =>
    simp only [idxMapFrom, List.map_cons, List.count_cons, List.countP_cons, hfg, ih]
    by_cases h : p a <;> simp [h]

/-- Result of one `evaluate_population` call: the scored population, the new
`function_evals` counter, the per-individual flag of whether `run_code` was
invoked (i.e. whether `function_evals` was incremented for it), and the
per-individual wait/kill trace of the second loop. -/
structure EvalResult where
  population : List Ind
  function_evals : ℕ
  attempted : List Bool
  traces : List WaitTrace

/-- Embeds `evaluate_population` (lines 146-203): first loop launches (or marks)
every individual in input order, incrementing `function_evals` once per
individual whose code is not `None`; second loop waits on each stored
handle in the same order and scores the individual from its capture. -/
def evaluate_population (env : ExecEnv) (function_evals : ℕ) (population : List Ind) : EvalResult :=
  let step1 := idxMap (fun i ind => launchOne env i ind) population
  let fe := function_evals + (step1.map (fun t => t.2.1)).count true
  let step2 := idxMap (fun i t => waitOne env i t.1 t.2.2) step1
  { population := step2.map (fun t => t.1),
    function_evals := fe,
    attempted := step1.map (fun t => t.2.1),
    traces := step2.map (fun t => t.2) }

theorem evaluate_population_length (env : ExecEnv) (f : ℕ) (pop : List Ind) :
    (evaluate_population env f pop).population.length = pop.length := by
  simp [evaluate_population, idxMap, length_idxMapFrom]

theorem evaluate_population_getD (env : ExecEnv) (f : ℕ) (pop : List Ind)
    (i : ℕ) (h : i < pop.length) :
    (evaluate_population env f pop).population.getD i Ind.dummy =
      (waitOne env i (launchOne env i (pop.getD i Ind.dummy)).1
        (launchOne env i (pop.getD i Ind.dummy)).2.2).1 := by
  have h1 : i < (idxMap (fun i ind => launchOne env i ind) pop).length := by
    simpa [idxMap, length_idxMapFrom] using h
  have h2 : i < (idxMap (fun i t => waitOne env i t.1 t.2.2)
      (idxMap (fun i ind => launchOne env i ind) pop)).length := by
    simpa [idxMap, length_idxMapFrom] using h
  simp only [evaluate_population]
  rw [getD_map' _ _ (Ind.dummy, WaitTrace.dummy) _ i h2]
  rw [idxMap, getD_idxMapFrom _ _ (Ind.dummy, false, false) _ 0 i h1]
  rw [idxMap, getD_idxMapFrom _ _ Ind.dummy _ 0 i h]
  simp

theorem evaluate_population_traces_getD (env : ExecEnv) (f : ℕ) (pop : List Ind)
    (i : ℕ) (h : i < pop.length) :
    (evaluate_population env f pop).traces.getD i WaitTrace.dummy =
      (waitOne env i (launchOne env i (pop.getD i Ind.dummy)).1
        (launchOne env i (pop.getD i Ind.dummy)).2.2).2 := by
  have h1 : i < (idxMap (fun i ind => launchOne env i ind) pop).length := by
    simpa [idxMap, length_idxMapFrom] using h
  have h2 : i < (idxMap (fun i t => waitOne env i t.1 t.2.2)
      (idxMap (fun i ind => launchOne env i ind) pop)).length := by
    simpa [idxMap, length_idxMapFrom] using h
  simp only [evaluate_population]
  rw [getD_map' _ _ (Ind.dummy, WaitTrace.dummy) _ i h2]
  rw [idxMap, getD_idxMapFrom _ _ (Ind.dummy, false, false) _ 0 i h1]
  rw [idxMap, getD_idxMapFrom _ _ Ind.dummy _ 0 i h]
  simp

theorem evaluate_population_attempted_getD (env : ExecEnv) (f : ℕ) (pop : List Ind)
    (i : ℕ) (h : i < pop.length) :
    (evaluate_population env f pop).attempted.getD i false =
      (launchOne env i (pop.getD i Ind.dummy)).2.1 := by
  have h1 : i < (idxMap (fun i ind => launchOne env i ind) pop).length := by
    simpa [idxMap, length_idxMapFrom] using h
  simp only [evaluate_population]
  rw [getD_map' _ _ (Ind.dummy, false, false) _ i h1]
  rw [idxMap, getD_idxMapFrom _ _ Ind.dummy _ 0 i h]
  simp

theorem launchOne_attempted (env : ExecEnv) (i : ℕ) (ind : Ind) :
    (launchOne env i ind).2.1 = ind.code.isSome := by
  cases hc : ind.code with
  | none => simp [launchOne, hc]
  | some c =>
    cases hl : env.launch i with
    | none => simp [launchOne, hc, hl]
    | some e => simp [launchOne, hc, hl]

theorem evaluate_population_function_evals (env : ExecEnv) (f : ℕ) (pop : List Ind) :
    (evaluate_population env f pop).function_evals =
      f + pop.countP (fun ind => ind.code.isSome) := by
  simp only [evaluate_population, idxMap]
  rw [count_true_idxMapFrom (fun ind => ind.code.isSome) (fun i ind => launchOne env i ind)
    (fun t => t.2.1) (fun i a => launchOne_attempted env i a) 0 pop]

/-- Controller state of `G2A` as touched by the generational loop, mirroring
the instance attributes after `init_population` has completed.
`best_code_overall` holds the Python value (which can be `None`, hence
`Option String`).  `best_desc_overall = none` models the attribute not
existing on the instance: it is only ever assigned on line 236, whose
right-hand side raises `KeyError` first, and reading a missing attribute
raises `AttributeError`.  `pop_size`, `max_fe` and `diversify` come from
`self.cfg`. -/
structure GAState where
  iteration : ℕ
  function_evals : ℕ
  elitist : Option Ind
  best_obj_overall : PyFloat
  best_code_overall : Option String
  best_desc_overall : Option String
  best_code_path_overall : String
  population : List Ind
  pop_size : ℕ
  max_fe : ℕ
  diversify : Bool

/-- Embeds the comprehension `objs = [individual["obj"] for individual in population]` (line 229):
`none` models the `KeyError` raised when an individual has no `obj` key. -/
def collectObjs : List Ind → Option (List PyFloat)
  | [] => some []
  | ind :: rest =>
    match ind.obj with
    | none => none
    | some o => (collectObjs rest).map (fun os => o :: os)

/-- Embeds `update_iter` (lines 224-247).  Returns the state as mutated so far
together with the exception that escaped, if any: Python updates `self`
attribute by attribute, so an exception raised partway — for example the
`KeyError` on line 236, where `population[best_sample_idx]["description"]`
is read — leaves the assignments of lines 234-235 in place.  The elitist
check replicates the short-circuit `self.elitist is None or
best_obj < self.elitist["obj"]`, and `self.iteration += 1` runs only when
no exception was raised before line 247. -/
def update_iter (s : GAState) : GAState × Option PyErr :=
  match collectObjs s.population with
  | none => (s, some .keyError)
  | some objs =>
    match pythonMinList objs with
    | none => (s, some .valueError)
    | some best_obj =>
      let best := s.population.getD (npArgmin objs) Ind.dummy
      let step1 : GAState × Option PyErr :=
        if best_obj.lt s.best_obj_overall then
          let s1 := { s with best_obj_overall := best_obj, best_code_overall := best.code }
          match best.description with
          | none => (s1, some .keyError)
          | some d =>
            ({ s1 with best_desc_overall := some d, best_code_path_overall := best.code_path },
              none)
        else (s, none)
      match step1 with
      | (s1, some e) => (s1, some e)
      | (s1, none) =>
        match s.elitist with
        | none => ({ s1 with elitist := some best, iteration := s1.iteration + 1 }, none)
        | some e =>
          match e.obj with
          | none => (s1, some .keyError)
          | some eo =>
            if best_obj.lt eo then
              ({ s1 with elitist := some best, iteration := s1.iteration + 1 }, none)
            else ({ s1 with iteration := s1.iteration + 1 }, none)

/-- Embeds the filter `[individual for individual in population if individual["exec_success"]]`
(line 256): `none` models the `KeyError` on an individual without the key. -/
def filterExecSuccess : List Ind → Option (List Ind)
  | [] => some []
  | ind :: rest =>
    match ind.exec_success with
    | none => none
    | some b => (filterExecSuccess rest).map (fun r => if b then ind :: r else r)

/-- One draw `np.random.choice(pool, size=2, replace=False)`, modelled from
the random source: two random words `(a, b)` determine a pair of distinct
in-range indices into a pool of `len ≥ 2` elements, and every such pair is
reachable. -/
def samplePairIdx (a b len : ℕ) : ℕ × ℕ :=
  let i := a % len
  let j0 := b % (len - 1)
  (i, if j0 ≥ i then j0 + 1 else j0)

/-- Embeds `random_select` (lines 250-261): filter the pool to execution-successful
individuals (`KeyError` if the key is missing), then draw `pop_size` pairs;
`np.random.choice(..., size=2, replace=False)` raises `ValueError` when the
filtered pool has fewer than two elements (in particular on an all-failed
pool).  `sampler` provides the random words consumed by the k-th draw;
`selectPair` is the pair of parents appended by the k-th draw. -/
def selectPair (sampler : ℕ → ℕ × ℕ) (pool : List Ind) (k : ℕ) : List Ind :=
  [pool.getD (samplePairIdx (sampler k).1 (sampler k).2 pool.length).1 Ind.dummy,
   pool.getD (samplePairIdx (sampler k).1 (sampler k).2 pool.length).2 Ind.dummy]

/-- The draw loop `for _ in range(self.cfg.pop_size)` of `random_select`
(lines 257-259), over the list of draw indices: each iteration calls
`np.random.choice(pool, size=2, replace=False)`, which raises `ValueError`
when the pool has fewer than two elements, and otherwise extends the
selected population with the two drawn parents.  With an empty index list
the loop body never runs, so no error can be raised. -/
def randomSelectLoop (sampler : ℕ → ℕ × ℕ) (pool : List Ind) :
    List ℕ → Except PyErr (List Ind)
  | [] => .ok []
  | k :: ks =>
    if pool.length < 2 then .error .valueError
    else
      match randomSelectLoop sampler pool ks with
      | .error e => .error e
      | .ok rest => .ok (selectPair sampler pool k ++ rest)

def random_select (sampler : ℕ → ℕ × ℕ) (pop_size : ℕ) (population : List Ind) :
    Except PyErr (List Ind) :=
  match filterExecSuccess population with
  | none => .error .keyError
  | some pool => randomSelectLoop sampler pool (List.range pop_size)

/-- Scan of lines 269-281: while building the crossover prompts Python
reads `parent["description"]` for both members of every adjacent pair;
this is `true` iff every pair has both descriptions present (otherwise the
first absent key raises `KeyError`). -/
def pairsDescOk : List Ind → Bool
  | [] => true
  | [_] => true
  | a :: b :: rest => a.description.isSome && b.description.isSome && pairsDescOk rest

/-- Embeds `crossover` (lines 264-299): asserts the selected population has size
`2 * pop_size`, builds one crossover prompt per adjacent pair — reading
both parents' `code` and `description` keys, the latter raising `KeyError`
when absent — then converts one model completion per pair into an
offspring.  `responses` abstracts the batched `multi_chat_completion`
(defined in `utils/utils.py`, outside `src/`): the completion text of the
i-th pair. -/
def crossover (process_code : String → Option String) (responses : ℕ → String)
    (iteration pop_size : ℕ) (population : List Ind) : Except PyErr (List Ind) :=
  if population.length = 2 * pop_size then
    if pairsDescOk population then
      (List.range pop_size).mapM (fun i =>
        response_to_individual process_code iteration (responses i) i none)
    else .error .keyError
  else .error .assertionError

/-- In-place replacement loop of `mutate` (lines 325-328): the k-th batched
completion replaces the population slot recorded for it. -/
def mutateApply (process_code : String → Option String) (responses : ℕ → String)
    (iteration : ℕ) : List (ℕ × ℕ) → List Ind → Except PyErr (List Ind)
  | [], pop => .ok pop
  | (k, id) :: rest, pop =>
    match response_to_individual process_code iteration (responses k) id none with
    | .error e => .error e
    | .ok ind => mutateApply process_code responses iteration rest (pop.set id ind)

/-- Embeds `mutate` (lines 302-331): each slot is independently selected by the
draw `np.random.uniform() < mutation_rate` (modelled by `coin`); building a
selected slot's prompt reads its `code` and `description` keys (`KeyError`
when `description` is absent); one completion per selected slot then
replaces that slot in place; finally the population size is asserted to be
`pop_size`. -/
def mutate (process_code : String → Option String) (responses : ℕ → String) (coin : ℕ → Bool)
    (iteration pop_size : ℕ) (population : List Ind) : Except PyErr (List Ind) :=
  let sel := (List.range population.length).filter coin
  if sel.all (fun i => (population.getD i Ind.dummy).description.isSome) then
    match mutateApply process_code responses iteration sel.enum population with
    | .error e => .error e
    | .ok pop2 => if pop2.length = pop_size then .ok pop2 else .error .assertionError
  else .error .keyError

/-- Abstract collaborators of the generational loop, indexed by the
iteration counter: the code extractor, the batched model completions for
crossover and mutation, the mutation coin flips, the random words of the
selection draws, and the execution environment of `evaluate_population`. -/
structure EvolveEnv where
  process_code : String → Option String
  crossResponses : ℕ → ℕ → String
  mutResponses : ℕ → ℕ → String
  coin : ℕ → ℕ → Bool
  sampler : ℕ → ℕ → ℕ × ℕ
  exec : ℕ → ExecEnv

/-- One iteration of the `while` body of `evolve` (lines 336-349): optional
diversification (`self.diversify` is not defined anywhere in the class, so
`cfg.diversify = True` raises `AttributeError`), selection over
`[elitist] + population` when an elitist exists, crossover, mutation,
evaluation, and the bookkeeping update. -/
def evolveStep (env : EvolveEnv) (s : GAState) : Except PyErr GAState :=
  if s.diversify then .error .attributeError
  else
    let pool :=
      match s.elitist with
      | none => s.population
      | some e => e :: s.population
    match random_select (env.sampler s.iteration) s.pop_size pool with
    | .error e => .error e
    | .ok selected =>
      match crossover env.process_code (env.crossResponses s.iteration) s.iteration s.pop_size
          selected with
      | .error e => .error e
      | .ok crossed =>
        match mutate env.process_code (env.mutResponses s.iteration) (env.coin s.iteration)
            s.iteration s.pop_size crossed with
        | .error e => .error e
        | .ok mutated =>
          let r := evaluate_population (env.exec s.iteration) s.function_evals mutated
          let s2 := { s with population := r.population, function_evals := r.function_evals }
          match update_iter s2 with
          | (_, some e) => .error e
          | (s3, none) => .ok s3

/-- The `return` statement of `evolve` (line 350): reads the attributes
`best_code_overall`, `best_desc_overall` and `best_code_path_overall`.
Reading `best_desc_overall` raises `AttributeError` when it was never
assigned. -/
def evolveReturn (s : GAState) : Except PyErr (Option String × String × String) :=
  match s.best_desc_overall with
  | none => .error .attributeError
  | some d => .ok (s.best_code_overall, d, s.best_code_path_overall)

/-- Embeds `evolve` (lines 334-350): loop while `function_evals < max_fe`, then
return the best-overall triple.  `fuel` bounds how many loop iterations the
embedding unrolls; running out of fuel yields `none`, keeping bounded
unrolling distinguishable from a genuine outcome of the Python loop. -/
def evolve (env : EvolveEnv) :
    ℕ → GAState → Option (Except PyErr (Option String × String × String))
  | 0, s => if s.function_evals < s.max_fe then none else some (evolveReturn s)
  | fuel + 1, s =>
    if s.function_evals < s.max_fe then
      match evolveStep env s with
      | .error e => some (.error e)
      | .ok s2 => evolve env fuel s2
    else some (evolveReturn s)

/-- Every individual that goes through both loops of `evaluate_population`
ends up either fully scored as a success or `mark_invalid_individual`-ed
with some failure message. -/
theorem evalOne_cases (env : ExecEnv) (i : ℕ) (ind : Ind) :
    (∃ msg, (waitOne env i (launchOne env i ind).1 (launchOne env i ind).2.2).1 =
        mark_invalid_individual ind msg) ∨
    (∃ v, (PyFloat.fin 0).lt v = true ∧
        (waitOne env i (launchOne env i ind).1 (launchOne env i ind).2.2).1 =
          { ind with obj := some v, fitness := some v.oneDiv, exec_success := some true }) := by
  cases hc : ind.code with
  | none =>
    left
    exact ⟨"Invalid response!", by simp [launchOne, hc, waitOne]⟩
  | some c =>
    cases hl : env.launch i with
    | some e =>
      left
      exact ⟨e, by simp [launchOne, hc, hl, waitOne]⟩
    | none =>
      cases hw : env.wait i with
      | some msg =>
        left
        exact ⟨msg, by simp [launchOne, hc, hl, waitOne, hw]⟩
      | none =>
        have hred : (waitOne env i (launchOne env i ind).1 (launchOne env i ind).2.2).1 =
            classifyStdout env.tbFilter (env.stdoutFile ind.stdout_filepath) ind := by
          simp [launchOne, hc, hl, waitOne, hw]
        rw [hred]
        unfold classifyStdout
        by_cases ht : env.tbFilter (env.stdoutFile ind.stdout_filepath) = ""
        · rw [if_pos ht]
          cases hp : pySplitPenultimate (env.stdoutFile ind.stdout_filepath) with
          | none =>
            left
            exact ⟨_, rfl⟩
          | some line =>
            dsimp only
            cases hv : pyFloatOfString line with
            | none =>
              left
              exact ⟨_, rfl⟩
            | some v =>
              dsimp only
              by_cases hpos : (PyFloat.fin 0).lt v
              · right
                exact ⟨v, hpos, by rw [if_pos hpos, hc]⟩
              · left
                exact ⟨_, by rw [if_neg hpos]⟩
        · rw [if_neg ht]
          left
          exact ⟨_, rfl⟩

/-- The scored version of an individual keeps its identity fields and has
`obj`, `fitness` and `exec_success` set. -/
theorem evalOne_scored (env : ExecEnv) (i : ℕ) (ind : Ind) :
    ((waitOne env i (launchOne env i ind).1 (launchOne env i ind).2.2).1).stdout_filepath =
      ind.stdout_filepath ∧
    ((waitOne env i (launchOne env i ind).1 (launchOne env i ind).2.2).1).code_path =
      ind.code_path ∧
    ((waitOne env i (launchOne env i ind).1 (launchOne env i ind).2.2).1).code = ind.code ∧
    ((waitOne env i (launchOne env i ind).1 (launchOne env i ind).2.2).1).response_id =
      ind.response_id ∧
    ((waitOne env i (launchOne env i ind).1 (launchOne env i ind).2.2).1).obj.isSome = true ∧
    ((waitOne env i (launchOne env i ind).1 (launchOne env i ind).2.2).1).fitness.isSome = true ∧
    ((waitOne env i (launchOne env i ind).1 (launchOne env i ind).2.2).1).exec_success.isSome
      = true := by
  rcases evalOne_cases env i ind with ⟨msg, hm⟩ | ⟨v, hv, hm⟩ <;>
    rw [hm] <;> simp [mark_invalid_individual]

/-- Concrete execution environment for the C7 witness: the launch raises. -/
def envC7w : ExecEnv :=
  { launch := fun _ => some ("spawn failed"),
    wait := fun _ => none,
    stdoutFile := fun _ => "",
    tbFilter := filter_traceback_model }

def indC7w : Ind :=
  { stdout_filepath := "problem_iter1_stdout0.txt", code_path := "problem_iter1_code0.py",
    code := some ("import x"), response_id := 0 }

/-- Concrete execution environment for the C8 witness: a clean run whose
capture has a parseable infinite objective on the penultimate line is
scored, the other entry times out. -/
def envC8w : ExecEnv :=
  { launch := fun _ => none,
    wait := fun i => if i = 1 then some ("timed out after 20 seconds") else none,
    stdoutFile := fun _ => "inf\nDONE",
    tbFilter := filter_traceback_model }

def indC8w : Ind :=
  { stdout_filepath := "problem_iter2_stdout0.txt", code_path := "problem_iter2_code0.py",
    code := some ("import y"), response_id := 0 }

def indC8w2 : Ind :=
  { stdout_filepath := "problem_iter2_stdout1.txt", code_path := "problem_iter2_code1.py",
    code := some ("import z"), response_id := 1 }

/-- Claim C7: every per-individual failure path (null code, launch
exception, timeout, runtime traceback in the capture, malformed or
non-positive objective output) leaves that individual with
`exec_success = False`, `obj = float("inf")`, `fitness = 0` and a recorded
failure message, and the rest of the generation is still evaluated (the
output covers the whole input, every entry scored either as a success or as
such a degraded failure). -/
theorem C7_failure_paths_degrade_locally (env : ExecEnv) (f : ℕ) (pop : List Ind) :
    (evaluate_population env f pop).population.length = pop.length ∧
    ∀ i, i < pop.length →
      (((evaluate_population env f pop).population.getD i Ind.dummy).exec_success = some true) ∨
      (((evaluate_population env f pop).population.getD i Ind.dummy).exec_success = some false ∧
       ((evaluate_population env f pop).population.getD i Ind.dummy).obj = some PyFloat.inf ∧
       ((evaluate_population env f pop).population.getD i Ind.dummy).fitness =
         some (PyFloat.fin 0) ∧
       ((evaluate_population env f pop).population.getD i Ind.dummy).traceback_msg.isSome
         = true) := by
  refine ⟨evaluate_population_length env f pop, ?_⟩
  intro i h
  rw [evaluate_population_getD env f pop i h]
  rcases evalOne_cases env i (pop.getD i Ind.dummy) with ⟨msg, hm⟩ | ⟨v, hv, hm⟩
  · right
    rw [hm]
    simp [mark_invalid_individual]
  · left
    rw [hm]

/-- Claim C7 witness. -/
theorem C7_witness :
    ((0 : ℕ) < 1) ∧
    ((((evaluate_population envC7w 2 [indC7w]).population.getD 0 Ind.dummy).exec_success
        = some true) ∨
     (((evaluate_population envC7w 2 [indC7w]).population.getD 0 Ind.dummy).exec_success
        = some false ∧
      ((evaluate_population envC7w 2 [indC7w]).population.getD 0 Ind.dummy).obj
        = some PyFloat.inf ∧
      ((evaluate_population envC7w 2 [indC7w]).population.getD 0 Ind.dummy).fitness
        = some (PyFloat.fin 0) ∧
      ((evaluate_population envC7w 2 [indC7w]).population.getD 0 Ind.dummy).traceback_msg.isSome
        = true)) :=
  ⟨by decide, (C7_failure_paths_degrade_locally envC7w 2 [indC7w]).2 0 (by decide)⟩

/-- Claim C8: the output population has the same length as the input, entry
`i` of the output is the scored version of entry `i` of the input (identity
fields preserved), and every output entry carries `obj`, `fitness` and
`exec_success`, whatever the capture contents and process outcomes are. -/
theorem C8_output_index_aligned_fully_scored (env : ExecEnv) (f : ℕ) (pop : List Ind) :
    (evaluate_population env f pop).population.length = pop.length ∧
    ∀ i, i < pop.length →
      (((evaluate_population env f pop).population.getD i Ind.dummy).stdout_filepath =
        (pop.getD i Ind.dummy).stdout_filepath ∧
       ((evaluate_population env f pop).population.getD i Ind.dummy).code_path =
        (pop.getD i Ind.dummy).code_path ∧
       ((evaluate_population env f pop).population.getD i Ind.dummy).code =
        (pop.getD i Ind.dummy).code ∧
       ((evaluate_population env f pop).population.getD i Ind.dummy).response_id =
        (pop.getD i Ind.dummy).response_id) ∧
      (((evaluate_population env f pop).population.getD i Ind.dummy).obj.isSome = true ∧
       ((evaluate_population env f pop).population.getD i Ind.dummy).fitness.isSome = true ∧
       ((evaluate_population env f pop).population.getD i Ind.dummy).exec_success.isSome
         = true) := by
  refine ⟨evaluate_population_length env f pop, ?_⟩
  intro i h
  rw [evaluate_population_getD env f pop i h]
  have hs := evalOne_scored env i (pop.getD i Ind.dummy)
  exact ⟨⟨hs.1, hs.2.1, hs.2.2.1, hs.2.2.2.1⟩,
    ⟨hs.2.2.2.2.1, hs.2.2.2.2.2.1, hs.2.2.2.2.2.2⟩⟩

/-- Claim C8 witness. -/
theorem C8_witness :
    ((0 : ℕ) < 2) ∧
    ((((evaluate_population envC8w 0 [indC8w, indC8w2]).population.getD 0 Ind.dummy).stdout_filepath
        = ([indC8w, indC8w2].getD 0 Ind.dummy).stdout_filepath ∧
      ((evaluate_population envC8w 0 [indC8w, indC8w2]).population.getD 0 Ind.dummy).code_path
        = ([indC8w, indC8w2].getD 0 Ind.dummy).code_path ∧
      ((evaluate_population envC8w 0 [indC8w, indC8w2]).population.getD 0 Ind.dummy).code
        = ([indC8w, indC8w2].getD 0 Ind.dummy).code ∧
      ((evaluate_population envC8w 0 [indC8w, indC8w2]).population.getD 0 Ind.dummy).response_id
        = ([indC8w, indC8w2].getD 0 Ind.dummy).response_id) ∧
     (((evaluate_population envC8w 0 [indC8w, indC8w2]).population.getD 0 Ind.dummy).obj.isSome
        = true ∧
      ((evaluate_population envC8w 0 [indC8w, indC8w2]).population.getD 0 Ind.dummy).fitness.isSome
        = true ∧
      ((evaluate_population envC8w 0 [indC8w, indC8w2]).population.getD 0 Ind.dummy).exec_success.isSome
        = true)) :=
  ⟨by decide, (C8_output_index_aligned_fully_scored envC8w 0 [indC8w, indC8w2]).2 0 (by decide)⟩

def envC2 : ExecEnv :=
  { launch := fun _ => none,
    wait := fun _ => none,
    stdoutFile := fun _ => "",
    tbFilter := filter_traceback_model }

def indC2 : Ind :=
  { stdout_filepath := "problem_iter3_stdout0.txt", code_path := "problem_iter3_code0.py",
    code := none, response_id := 0 }

/-- Claim C2 counterexample: a null-code individual is marked invalid with
"Invalid response!" and no process launch is attempted, but the cumulative
`function_evals` counter is NOT incremented for it — the `continue` on
line 158 happens before the `self.function_evals += 1` on line 161, so the
counter stays at 7 instead of the claimed 8. -/
theorem C2_counterexample :
    (evaluate_population envC2 7 [indC2]).function_evals = 7 ∧
    (evaluate_population envC2 7 [indC2]).population.getD 0 Ind.dummy =
      mark_invalid_individual indC2 ("Invalid response!") ∧
    (evaluate_population envC2 7 [indC2]).attempted.getD 0 true = false := by
  decide

/-- Claim C2 (amended): a null-code individual is marked invalid with
failure message "Invalid response!" and `run_code` is never invoked for it,
and the cumulative function-evaluation counter is NOT incremented for it:
the counter grows by exactly one per individual whose code is not null. -/
theorem C2_null_code_skipped_without_feval (env : ExecEnv) (f : ℕ) (pop : List Ind)
    (i : ℕ) (h : i < pop.length) (hnull : (pop.getD i Ind.dummy).code = none) :
    (evaluate_population env f pop).population.getD i Ind.dummy =
      mark_invalid_individual (pop.getD i Ind.dummy) ("Invalid response!") ∧
    (evaluate_population env f pop).attempted.getD i false = false ∧
    (evaluate_population env f pop).function_evals =
      f + pop.countP (fun ind => ind.code.isSome) := by
  have hl1 : launchOne env i (pop.getD i Ind.dummy) =
      (mark_invalid_individual (pop.getD i Ind.dummy) ("Invalid response!"), false, false) := by
    unfold launchOne
    rw [hnull]
  refine ⟨?_, ?_, evaluate_population_function_evals env f pop⟩
  · rw [evaluate_population_getD env f pop i h, hl1]
    rfl
  · rw [evaluate_population_attempted_getD env f pop i h, hl1]

/-- Claim C2 witness. -/
theorem C2_witness :
    ((0 : ℕ) < 1 ∧ ([indC2].getD 0 Ind.dummy).code = none) ∧
    ((evaluate_population envC2 9 [indC2]).population.getD 0 Ind.dummy =
      mark_invalid_individual ([indC2].getD 0 Ind.dummy) ("Invalid response!") ∧
     (evaluate_population envC2 9 [indC2]).attempted.getD 0 false = false ∧
     (evaluate_population envC2 9 [indC2]).function_evals =
       9 + [indC2].countP (fun ind => ind.code.isSome)) :=
  ⟨⟨by decide, by decide⟩,
    C2_null_code_skipped_without_feval envC2 9 [indC2] 0 (by decide) (by decide)⟩

def envC9w : ExecEnv :=
  { launch := fun _ => none,
    wait := fun i => if i = 0 then some ("Command timed out after 20 seconds") else none,
    stdoutFile := fun _ => "ok\ninf\n",
    tbFilter := filter_traceback_model }

def indC9w : Ind :=
  { stdout_filepath := "problem_iter4_stdout0.txt", code_path := "problem_iter4_code0.py",
    code := some ("import a"), response_id := 0 }

def indC9w2 : Ind :=
  { stdout_filepath := "problem_iter4_stdout1.txt", code_path := "problem_iter4_code1.py",
    code := some ("import b"), response_id := 1 }

/-- Claim C9: every individual whose process was launched is waited on
exactly once, with the fixed deadline of 20 time units; if the wait times
out the process is killed and the individual is marked invalid with the
timeout exception's message, with no retry; and the evaluation still
classifies every individual of the generation. -/
theorem C9_timeout_kill_no_retry (env : ExecEnv) (f : ℕ) (pop : List Ind)
    (i : ℕ) (h : i < pop.length)
    (hcode : (pop.getD i Ind.dummy).code.isSome = true)
    (hlaunch : env.launch i = none) :
    ((evaluate_population env f pop).traces.getD i WaitTrace.dummy).waits = [20] ∧
    (∀ msg, env.wait i = some msg →
      (evaluate_population env f pop).population.getD i Ind.dummy =
        mark_invalid_individual (pop.getD i Ind.dummy) msg ∧
      ((evaluate_population env f pop).traces.getD i WaitTrace.dummy).killed = true) ∧
    (evaluate_population env f pop).population.length = pop.length ∧
    (∀ j, j < pop.length →
      ((evaluate_population env f pop).population.getD j Ind.dummy).exec_success.isSome
        = true) := by
  obtain ⟨c, hc⟩ := Option.isSome_iff_exists.mp hcode
  have htr := evaluate_population_traces_getD env f pop i h
  have hpo := evaluate_population_getD env f pop i h
  have hl1 : launchOne env i (pop.getD i Ind.dummy) = (pop.getD i Ind.dummy, true, true) := by
    unfold launchOne
    rw [hc, hlaunch]
  refine ⟨?_, ?_, evaluate_population_length env f pop, ?_⟩
  · rw [htr, hl1]
    cases hw : env.wait i with
    | none => simp [waitOne, hw]
    | some msg => simp [waitOne, hw]
  · intro msg hw
    constructor
    · rw [hpo, hl1]
      simp [waitOne, hw]
    · rw [htr, hl1]
      simp [waitOne, hw]
  · intro j hj
    rw [evaluate_population_getD env f pop j hj]
    exact (evalOne_scored env j (pop.getD j Ind.dummy)).2.2.2.2.2.2

/-- Claim C9 witness. -/
theorem C9_witness :
    ((0 : ℕ) < 2 ∧ ([indC9w, indC9w2].getD 0 Ind.dummy).code.isSome = true ∧
      envC9w.launch 0 = none) ∧
    (((evaluate_population envC9w 0 [indC9w, indC9w2]).traces.getD 0 WaitTrace.dummy).waits
        = [20] ∧
     (∀ msg, envC9w.wait 0 = some msg →
       (evaluate_population envC9w 0 [indC9w, indC9w2]).population.getD 0 Ind.dummy =
         mark_invalid_individual ([indC9w, indC9w2].getD 0 Ind.dummy) msg ∧
       ((evaluate_population envC9w 0 [indC9w, indC9w2]).traces.getD 0 WaitTrace.dummy).killed
         = true) ∧
     (evaluate_population envC9w 0 [indC9w, indC9w2]).population.length = 2 ∧
     (∀ j, j < [indC9w, indC9w2].length →
       ((evaluate_population envC9w 0 [indC9w, indC9w2]).population.getD j Ind.dummy).exec_success.isSome
         = true)) :=
  ⟨⟨by decide, by decide, by decide⟩,
    C9_timeout_kill_no_retry envC9w 0 [indC9w, indC9w2] 0 (by decide) (by decide) (by decide)⟩

def envC3x : ExecEnv :=
  { launch := fun _ => none,
    wait := fun _ => none,
    stdoutFile := fun _ => "inf\n",
    tbFilter := filter_traceback_model }

def indC3x : Ind :=
  { stdout_filepath := "problem_iter5_stdout0.txt", code_path := "problem_iter5_code0.py",
    code := some ("import c"), response_id := 0 }

/-- Claim C3 counterexample: a clean capture whose second-to-last line is
`inf` (no traceback marker, so the filter — instantiated here with its
spec-modelled version — returns the empty string).  Python's
`float("inf")` is infinite, the `assert obj > 0` passes because
`inf > 0` is true, and the individual is scored `exec_success = True` with
`obj = float("inf")`: `exec_success` holds although the objective is not
finite, falsifying the claimed "iff finite and positive". -/
theorem C3_counterexample :
    ((evaluate_population envC3x 0 [indC3x]).population.getD 0 Ind.dummy).exec_success
      = some true ∧
    ((evaluate_population envC3x 0 [indC3x]).population.getD 0 Ind.dummy).obj
      = some PyFloat.inf ∧
    ((evaluate_population envC3x 0 [indC3x]).population.getD 0 Ind.dummy).traceback_msg
      = none := by
  decide

/-- Claim C3 (amended): for a batch of freshly created individuals (no
`traceback_msg` key yet), after evaluation `exec_success = True` holds iff
the objective is strictly positive in Python's float order (`+inf` included
— the code only asserts `obj > 0`, not finiteness) and no failure message
was recorded; and whenever `exec_success = True`, `fitness = 1 / obj`
exactly as computed by the code. -/
theorem C3_success_iff_positive_and_clean (env : ExecEnv) (f : ℕ) (pop : List Ind)
    (hmsg : ∀ ind ∈ pop, ind.traceback_msg = none) (i : ℕ) (h : i < pop.length) :
    ((((evaluate_population env f pop).population.getD i Ind.dummy).exec_success = some true) ↔
      ((∃ v, ((evaluate_population env f pop).population.getD i Ind.dummy).obj = some v ∧
          (PyFloat.fin 0).lt v = true) ∧
       ((evaluate_population env f pop).population.getD i Ind.dummy).traceback_msg = none)) ∧
    (∀ v, ((evaluate_population env f pop).population.getD i Ind.dummy).obj = some v →
      ((evaluate_population env f pop).population.getD i Ind.dummy).exec_success = some true →
      ((evaluate_population env f pop).population.getD i Ind.dummy).fitness
        = some v.oneDiv) := by
  have hmem : pop.getD i Ind.dummy ∈ pop := by
    rw [List.getD_eq_getElem pop Ind.dummy h]
    exact List.getElem_mem h
  have hmsg0 : (pop.getD i Ind.dummy).traceback_msg = none := hmsg _ hmem
  rw [evaluate_population_getD env f pop i h]
  rcases evalOne_cases env i (pop.getD i Ind.dummy) with ⟨msg, hm⟩ | ⟨v, hv, hm⟩
  · rw [hm]
    constructor
    · simp [mark_invalid_individual]
    · intro w hw hex
      simp [mark_invalid_individual] at hex
  · rw [hm]
    constructor
    · simp only [Option.some.injEq]
      constructor
      · intro _
        exact ⟨⟨v, rfl, hv⟩, hmsg0⟩
      · intro _
        trivial
    · intro w hw _
      have : v = w := Option.some.inj hw
      rw [← this]

def envC3w : ExecEnv :=
  { launch := fun _ => none,
    wait := fun _ => none,
    stdoutFile := fun _ => "Traceback (most recent call last): boom",
    tbFilter := filter_traceback_model }

def indC3w : Ind :=
  { stdout_filepath := "problem_iter5_stdout1.txt", code_path := "problem_iter5_code1.py",
    code := some ("import d"), response_id := 0 }

/-- Claim C3 witness. -/
theorem C3_witness :
    ((∀ ind ∈ [indC3w], ind.traceback_msg = none) ∧ (0 : ℕ) < 1) ∧
    (((((evaluate_population envC3w 0 [indC3w]).population.getD 0 Ind.dummy).exec_success
        = some true) ↔
      ((∃ v, ((evaluate_population envC3w 0 [indC3w]).population.getD 0 Ind.dummy).obj = some v ∧
          (PyFloat.fin 0).lt v = true) ∧
       ((evaluate_population envC3w 0 [indC3w]).population.getD 0 Ind.dummy).traceback_msg
        = none)) ∧
     (∀ v, ((evaluate_population envC3w 0 [indC3w]).population.getD 0 Ind.dummy).obj = some v →
       ((evaluate_population envC3w 0 [indC3w]).population.getD 0 Ind.dummy).exec_success
        = some true →
       ((evaluate_population envC3w 0 [indC3w]).population.getD 0 Ind.dummy).fitness
        = some v.oneDiv)) :=
  ⟨⟨by decide, by decide⟩,
    C3_success_iff_positive_and_clean envC3w 0 [indC3w] (by decide) 0 (by decide)⟩

theorem collectObjs_spec : ∀ (pop : List Ind) (objs : List PyFloat),
    collectObjs pop = some objs →
    objs.length = pop.length ∧
    (∀ i, i < pop.length → (pop.getD i Ind.dummy).obj = some (objs.getD i PyFloat.nan)) := by
  intro pop
  induction pop with
  | nil =>
    intro objs h
    cases h
    exact ⟨rfl, by intro i hi; simp at hi⟩
  | cons ind rest ih =>
    intro objs h
    unfold collectObjs at h
    cases ho : ind.obj with
    | none => rw [ho] at h; cases h
    | some o =>
      rw [ho] at h
      cases hr : collectObjs rest with
      | none => rw [hr] at h; cases h
      | some ros =>
        rw [hr] at h
        simp only [Option.map_some'] at h
        cases h
        obtain ⟨hlen, hget⟩ := ih ros hr
        refine ⟨by simp [hlen], ?_⟩
        intro i hi
        cases i with
        | zero => simpa using ho
        | succ j =>
          simp only [List.getD_cons_succ]
          exact hget j (by simpa using hi)

theorem collectObjs_mem_obj : ∀ (pop : List Ind) (objs : List PyFloat),
    collectObjs pop = some objs →
    ∀ ind ∈ pop, ∀ o, ind.obj = some o → o ∈ objs := by
  intro pop
  induction pop with
  | nil => intro objs h ind hmem; simp at hmem
  | cons a rest ih =>
    intro objs h ind hmem o ho
    unfold collectObjs at h
    cases ha : a.obj with
    | none => rw [ha] at h; cases h
    | some ao =>
      rw [ha] at h
      cases hr : collectObjs rest with
      | none => rw [hr] at h; cases h
      | some ros =>
        rw [hr] at h
        simp only [Option.map_some'] at h
        cases h
        rcases List.mem_cons.mp hmem with h1 | h1
        · subst h1
          rw [ha] at ho
          cases ho
          simp
        · exact List.mem_cons_of_mem _ (ih ros hr ind h1 o ho)

theorem collectObjs_obj_mem : ∀ (pop : List Ind) (objs : List PyFloat),
    collectObjs pop = some objs →
    ∀ o ∈ objs, ∃ ind, ind ∈ pop ∧ ind.obj = some o := by
  intro pop
  induction pop with
  | nil =>
    intro objs h o hmem
    cases h
    simp at hmem
  | cons a rest ih =>
    intro objs h o hmem
    unfold collectObjs at h
    cases ha : a.obj with
    | none => rw [ha] at h; cases h
    | some ao =>
      rw [ha] at h
      cases hr : collectObjs rest with
      | none => rw [hr] at h; cases h
      | some ros =>
        rw [hr] at h
        simp only [Option.map_some'] at h
        cases h
        rcases List.mem_cons.mp hmem with h1 | h1
        · exact ⟨a, by simp, by rw [ha, h1]⟩
        · obtain ⟨ind, hi1, hi2⟩ := ih ros hr o h1
          exact ⟨ind, List.mem_cons_of_mem _ hi1, hi2⟩

/-- Claim C6: across generation boundaries `best_obj_overall` is
non-increasing — the bookkeeping step either leaves it unchanged or
replaces it with the current generation's best objective, and only when
that best is strictly smaller (in Python float order); this holds even for
the runs on which the update raises partway. -/
theorem C6_best_obj_overall_monotone (s : GAState) :
    ((update_iter s).1.best_obj_overall = s.best_obj_overall ∨
      (∃ objs, collectObjs s.population = some objs ∧
        pythonMinList objs = some ((update_iter s).1.best_obj_overall) ∧
        ((update_iter s).1.best_obj_overall).lt s.best_obj_overall = true)) ∧
    (s.best_obj_overall.isNan = false →
      ((update_iter s).1.best_obj_overall).le s.best_obj_overall = true) := by
  have hmain : (update_iter s).1.best_obj_overall = s.best_obj_overall ∨
      (∃ objs, collectObjs s.population = some objs ∧
        pythonMinList objs = some ((update_iter s).1.best_obj_overall) ∧
        ((update_iter s).1.best_obj_overall).lt s.best_obj_overall = true) := by
    unfold update_iter
    cases hco : collectObjs s.population with
    | none => exact Or.inl rfl
    | some objs =>
      dsimp only
      cases hmin : pythonMinList objs with
      | none => exact Or.inl rfl
      | some best_obj =>
        dsimp only
        by_cases hlt : best_obj.lt s.best_obj_overall
        · rw [if_pos hlt]
          cases hd : (s.population.getD (npArgmin objs) Ind.dummy).description with
          | none => exact Or.inr ⟨objs, rfl, hmin, hlt⟩
          | some d =>
            dsimp only
            cases he : s.elitist with
            | none => exact Or.inr ⟨objs, rfl, hmin, hlt⟩
            | some e =>
              dsimp only
              cases heo : e.obj with
              | none => exact Or.inr ⟨objs, rfl, hmin, hlt⟩
              | some eo =>
                dsimp only
                by_cases hlt2 : best_obj.lt eo
                · rw [if_pos hlt2]
                  exact Or.inr ⟨objs, rfl, hmin, hlt⟩
                · rw [if_neg hlt2]
                  exact Or.inr ⟨objs, rfl, hmin, hlt⟩
        · rw [if_neg hlt]
          cases he : s.elitist with
          | none => exact Or.inl rfl
          | some e =>
            dsimp only
            cases heo : e.obj with
            | none => exact Or.inl rfl
            | some eo =>
              dsimp only
              by_cases hlt2 : best_obj.lt eo
              · rw [if_pos hlt2]
                exact Or.inl rfl
              · rw [if_neg hlt2]
                exact Or.inl rfl
  refine ⟨hmain, fun hnan => ?_⟩
  rcases hmain with h | ⟨objs, _, _, hlt⟩
  · rw [h]
    exact PyFloat.le_refl_of_notNan hnan
  · exact PyFloat.lt_le hlt

def indC6w : Ind :=
  { stdout_filepath := "problem_iter6_stdout0.txt", code_path := "problem_iter6_code0.py",
    code := some ("import e"), response_id := 0, description := none,
    obj := some (PyFloat.fin 5), fitness := some (PyFloat.fin 1), exec_success := some true,
    traceback_msg := none }

def stC6w : GAState :=
  { iteration := 1, function_evals := 2, elitist := some indC6w,
    best_obj_overall := PyFloat.fin 5, best_code_overall := some ("import e"),
    best_desc_overall := none, best_code_path_overall := "problem_iter6_code0.py",
    population := [indC6w], pop_size := 1, max_fe := 10, diversify := false }

/-- Claim C6 witness. -/
theorem C6_witness :
    (stC6w.best_obj_overall.isNan = false) ∧
    (((update_iter stC6w).1.best_obj_overall).le stC6w.best_obj_overall = true) :=
  ⟨by decide, (C6_best_obj_overall_monotone stC6w).2 (by decide)⟩

/-- On a `nan`-free objective list, the `np.argmin` index is in range,
points at the `min` value, and that value is a lower bound of the list. -/
theorem pythonMin_argmin_spec (objs : List PyFloat) (b : PyFloat)
    (hmin : pythonMinList objs = some b)
    (hnan : ∀ z ∈ objs, z.isNan = false) :
    npArgmin objs < objs.length ∧
    objs.getD (npArgmin objs) PyFloat.nan = b ∧
    (∀ z ∈ objs, b.le z = true) ∧
    b.isNan = false := by
  cases objs with
  | nil => simp [pythonMinList] at hmin
  | cons x xs =>
    obtain ⟨hidx, hgetmin⟩ := npArgmin_getD x xs
    have hfold : xs.foldl (fun m y => if y.lt m then y else m) x = b := Option.some.inj hmin
    refine ⟨hidx, Option.some.inj (hgetmin.symm.trans hmin), ?_, ?_⟩
    · intro z hz
      rw [← hfold]
      exact foldlMin_le xs x hnan z hz
    · rw [← hfold]
      exact hnan _ (foldlMin_mem xs x)

/-- Claim C5: whenever the bookkeeping update completes without raising, the
resulting elitist exists, its objective is less than or equal (in Python
float order) to the objective of every individual of the current
population, and the elitist changed only when no elitist existed yet or the
generation's best objective is strictly lower than the previous elitist's.
The `nan`-freeness hypotheses hold for every population produced by
`evaluate_population`, whose objectives are positive rationals or `inf`. -/
theorem C5_elitist_minimal_after_update (s : GAState)
    (hok : (update_iter s).2 = none)
    (hnanPop : ∀ ind ∈ s.population, ∀ o, ind.obj = some o → o.isNan = false)
    (hnanEl : ∀ e, s.elitist = some e → ∀ eo, e.obj = some eo → eo.isNan = false) :
    (∃ e, (update_iter s).1.elitist = some e ∧
      ∃ eo, e.obj = some eo ∧
        ∀ ind ∈ s.population, ∀ o, ind.obj = some o → eo.le o = true) ∧
    ((update_iter s).1.elitist = s.elitist ∨ s.elitist = none ∨
      (∃ old oldo objs best_obj, s.elitist = some old ∧ old.obj = some oldo ∧
        collectObjs s.population = some objs ∧ pythonMinList objs = some best_obj ∧
        best_obj.lt oldo = true)) := by
  unfold update_iter at hok ⊢
  cases hco : collectObjs s.population with
  | none =>
    rw [hco] at hok
    dsimp only at hok
    exact Option.noConfusion hok
  | some objs =>
    rw [hco] at hok
    dsimp only at hok ⊢
    cases hmin : pythonMinList objs with
    | none =>
      rw [hmin] at hok
      dsimp only at hok
      exact Option.noConfusion hok
    | some best_obj =>
      rw [hmin] at hok
      dsimp only at hok ⊢
      have hnanObjs : ∀ z ∈ objs, z.isNan = false := by
        intro z hz
        obtain ⟨ind, hi, ho⟩ := collectObjs_obj_mem s.population objs hco z hz
        exact hnanPop ind hi z ho
      obtain ⟨hidx, hbo, hminle, hnanBest⟩ := pythonMin_argmin_spec objs best_obj hmin hnanObjs
      obtain ⟨hlen, hget⟩ := collectObjs_spec s.population objs hco
      have hidx' : npArgmin objs < s.population.length := by
        rw [← hlen]
        exact hidx
      have hbestobj : (s.population.getD (npArgmin objs) Ind.dummy).obj = some best_obj := by
        rw [hget (npArgmin objs) hidx', hbo]
      have hallle : ∀ ind ∈ s.population, ∀ o, ind.obj = some o → best_obj.le o = true := by
        intro ind hi o ho
        exact hminle o (collectObjs_mem_obj s.population objs hco ind hi o ho)
      by_cases hlt : best_obj.lt s.best_obj_overall
      · rw [if_pos hlt] at hok ⊢
        cases hd : (s.population.getD (npArgmin objs) Ind.dummy).description with
        | none =>
          rw [hd] at hok
          dsimp only at hok
          exact Option.noConfusion hok
        | some d =>
          rw [hd] at hok
          dsimp only at hok ⊢
          cases he : s.elitist with
          | none =>
            exact ⟨⟨_, rfl, best_obj, hbestobj, hallle⟩, Or.inr (Or.inl rfl)⟩
          | some e =>
            rw [he] at hok
            dsimp only at hok ⊢
            cases heo : e.obj with
            | none =>
              rw [heo] at hok
              dsimp only at hok
              exact Option.noConfusion hok
            | some eo =>
              rw [heo] at hok
              dsimp only at hok ⊢
              have hnanEo : eo.isNan = false := hnanEl e he eo heo
              by_cases hlt2 : best_obj.lt eo
              · rw [if_pos hlt2]
                exact ⟨⟨_, rfl, best_obj, hbestobj, hallle⟩,
                  Or.inr (Or.inr ⟨e, eo, objs, best_obj, rfl, heo, rfl, hmin, hlt2⟩)⟩
              · rw [if_neg hlt2]
                have hlt2f : best_obj.lt eo = false := by
                  simpa using hlt2
                have heoble : eo.le best_obj = true :=
                  PyFloat.le_of_not_lt' hnanEo hnanBest hlt2f
                refine ⟨⟨e, rfl, eo, heo, ?_⟩, Or.inl rfl⟩
                intro ind hi o ho
                exact PyFloat.le_trans' heoble (hallle ind hi o ho)
      · rw [if_neg hlt] at hok ⊢
        dsimp only at hok ⊢
        cases he : s.elitist with
        | none =>
          exact ⟨⟨_, rfl, best_obj, hbestobj, hallle⟩, Or.inr (Or.inl rfl)⟩
        | some e =>
          rw [he] at hok
          dsimp only at hok ⊢
          cases heo : e.obj with
          | none =>
            rw [heo] at hok
            dsimp only at hok
            exact Option.noConfusion hok
          | some eo =>
            rw [heo] at hok
            dsimp only at hok ⊢
            have hnanEo : eo.isNan = false := hnanEl e he eo heo
            by_cases hlt2 : best_obj.lt eo
            · rw [if_pos hlt2]
              exact ⟨⟨_, rfl, best_obj, hbestobj, hallle⟩,
                Or.inr (Or.inr ⟨e, eo, objs, best_obj, rfl, heo, rfl, hmin, hlt2⟩)⟩
            · rw [if_neg hlt2]
              have hlt2f : best_obj.lt eo = false := by
                simpa using hlt2
              have heoble : eo.le best_obj = true :=
                PyFloat.le_of_not_lt' hnanEo hnanBest hlt2f
              refine ⟨⟨e, rfl, eo, heo, ?_⟩, Or.inl rfl⟩
              intro ind hi o ho
              exact PyFloat.le_trans' heoble (hallle ind hi o ho)

def indC5w : Ind :=
  { stdout_filepath := "problem_iter7_stdout0.txt", code_path := "problem_iter7_code0.py",
    code := some ("import f"), response_id := 0, description := some ("greedy variant"),
    obj := some (PyFloat.fin 5), fitness := some (PyFloat.fin 1), exec_success := some true,
    traceback_msg := none }

def stC5w : GAState :=
  { iteration := 1, function_evals := 3, elitist := none,
    best_obj_overall := PyFloat.inf, best_code_overall := some ("import f"),
    best_desc_overall := none, best_code_path_overall := "problem_iter7_code0.py",
    population := [indC5w], pop_size := 1, max_fe := 10, diversify := false }

/-- Claim C5 witness. -/
theorem C5_witness :
    ((update_iter stC5w).2 = none) ∧
    ((∃ e, (update_iter stC5w).1.elitist = some e ∧
      ∃ eo, e.obj = some eo ∧
        ∀ ind ∈ stC5w.population, ∀ o, ind.obj = some o → eo.le o = true) ∧
     ((update_iter stC5w).1.elitist = stC5w.elitist ∨ stC5w.elitist = none ∨
      (∃ old oldo objs best_obj, stC5w.elitist = some old ∧ old.obj = some oldo ∧
        collectObjs stC5w.population = some objs ∧ pythonMinList objs = some best_obj ∧
        best_obj.lt oldo = true))) :=
  ⟨by decide,
    C5_elitist_minimal_after_update stC5w (by decide)
      (by
        intro ind hi o ho
        have h1 : ind = indC5w := List.mem_singleton.mp (show ind ∈ [indC5w] from hi)
        subst h1
        have h2 : PyFloat.fin 5 = o := Option.some.inj ho
        rw [← h2]
        rfl)
      (fun e he => Option.noConfusion he)⟩

theorem getD_append_left {α : Type} (d : α) :
    ∀ (l1 l2 : List α) (i : ℕ), i < l1.length → (l1 ++ l2).getD i d = l1.getD i d := by
  intro l1
  induction l1 with
  | nil => intro l2 i h; simp at h
  | cons a as ih =>
    intro l2 i h
    cases i with
    | zero => rfl
    | succ j =>
      simp only [List.cons_append, List.getD_cons_succ]
      exact ih l2 j (by simpa using h)

theorem getD_append_right {α : Type} (d : α) :
    ∀ (l1 l2 : List α) (i : ℕ), (l1 ++ l2).getD (l1.length + i) d = l2.getD i d := by
  intro l1
  induction l1 with
  | nil => intro l2 i; simp
  | cons a as ih =>
    intro l2 i
    have h1 : (a :: as).length + i = (as.length + i) + 1 := by
      simp only [List.length_cons]
      omega
    rw [h1]
    simp only [List.cons_append, List.getD_cons_succ]
    exact ih l2 i

theorem range_bind_pairs {α : Type} (d : α) (g1 g2 : ℕ → α) :
    ∀ n : ℕ,
      ((List.range n).flatMap (fun k => [g1 k, g2 k])).length = 2 * n ∧
      (∀ k, k < n →
        ((List.range n).flatMap (fun k => [g1 k, g2 k])).getD (2 * k) d = g1 k ∧
        ((List.range n).flatMap (fun k => [g1 k, g2 k])).getD (2 * k + 1) d = g2 k) := by
  intro n
  induction n with
  | zero => exact ⟨rfl, by intro k hk; simp at hk⟩
  | succ m ih =>
    obtain ⟨ihlen, ihget⟩ := ih
    have hsplit : (List.range (m + 1)).flatMap (fun k => [g1 k, g2 k]) =
        (List.range m).flatMap (fun k => [g1 k, g2 k]) ++ [g1 m, g2 m] := by
      rw [List.range_succ, List.flatMap_append]
      simp
    constructor
    · rw [hsplit]
      simp only [List.length_append, ihlen, List.length_cons, List.length_nil]
      omega
    · intro k hk
      by_cases hkm : k < m
      · rw [hsplit]
        rw [getD_append_left d _ _ (2 * k) (by rw [ihlen]; omega),
          getD_append_left d _ _ (2 * k + 1) (by rw [ihlen]; omega)]
        exact ihget k hkm
      · have hk2 : k = m := by omega
        subst hk2
        rw [hsplit]
        constructor
        · have h0 : 2 * k = ((List.range k).flatMap (fun k => [g1 k, g2 k])).length + 0 := by
            rw [ihlen]
            omega
          rw [h0, getD_append_right]
          rfl
        · have h1 : 2 * k + 1 = ((List.range k).flatMap (fun k => [g1 k, g2 k])).length + 1 := by
            rw [ihlen]
          rw [h1, getD_append_right]
          rfl

theorem samplePairIdx_spec (a b len : ℕ) (h : 2 ≤ len) :
    (samplePairIdx a b len).1 < len ∧ (samplePairIdx a b len).2 < len ∧
    (samplePairIdx a b len).1 ≠ (samplePairIdx a b len).2 := by
  unfold samplePairIdx
  have hi : a % len < len := Nat.mod_lt _ (by omega)
  have hj0 : b % (len - 1) < len - 1 := Nat.mod_lt _ (by omega)
  by_cases hge : b % (len - 1) ≥ a % len
  · simp only [hge, if_pos]
    refine ⟨hi, by omega, by omega⟩
  · simp only [hge, if_neg, not_false_iff]
    refine ⟨hi, by omega, by omega⟩

def indC4a : Ind :=
  { stdout_filepath := "problem_iter8_stdout0.txt", code_path := "problem_iter8_code0.py",
    code := some ("import g"), response_id := 0, description := none,
    obj := some (PyFloat.fin 4), fitness := some (PyFloat.fin 1), exec_success := some true,
    traceback_msg := none }

def indC4b : Ind :=
  { stdout_filepath := "problem_iter8_stdout1.txt", code_path := "problem_iter8_code1.py",
    code := some ("import h"), response_id := 1, description := none,
    obj := some PyFloat.inf, fitness := some (PyFloat.fin 0), exec_success := some false,
    traceback_msg := some ("boom") }

def indC4c : Ind :=
  { stdout_filepath := "problem_iter8_stdout2.txt", code_path := "problem_iter8_code2.py",
    code := some ("import i"), response_id := 2, description := none,
    obj := some (PyFloat.fin 6), fitness := some (PyFloat.fin 1), exec_success := some true,
    traceback_msg := none }

/-- Claim C4 counterexample: a selection pool with exactly one
execution-successful individual.  `np.random.choice(pool, size=2,
replace=False)` raises `ValueError` (cannot draw two distinct elements from
a pool of one), so `random_select` propagates a failure although the pool
contains at least one execution-successful individual — refuting "completes
without error whenever the pool has at least one success". -/
theorem C4_counterexample :
    random_select (fun _ => (0, 0)) 1 [indC4a, indC4b] = Except.error PyErr.valueError := rfl

/-- On a pool with at least two members the draw loop never raises and
produces exactly the concatenation of its draws. -/
theorem randomSelectLoop_ok (sampler : ℕ → ℕ × ℕ) (pool : List Ind)
    (h2 : ¬ pool.length < 2) :
    ∀ l : List ℕ, randomSelectLoop sampler pool l =
      Except.ok (l.flatMap (selectPair sampler pool)) := by
  intro l
  induction l with
  | nil => rfl
  | cons k ks ih =>
    unfold randomSelectLoop
    rw [if_neg h2, ih]
    rfl

/-- On a pool with fewer than two members the first executed draw raises. -/
theorem randomSelectLoop_err (sampler : ℕ → ℕ × ℕ) (pool : List Ind)
    (h2 : pool.length < 2) (k : ℕ) (ks : List ℕ) :
    randomSelectLoop sampler pool (k :: ks) = Except.error PyErr.valueError := by
  unfold randomSelectLoop
  rw [if_pos h2]

/-- Claim C4 (amended): when every pool member carries its `exec_success`
key, random pairing selection completes without error and returns exactly
`2 * pop_size` selected parents — the two members of each pair drawn from
distinct positions of the successful pool — whenever at least TWO pool
members are execution-successful; with fewer than two successes every
executed draw raises (the `ValueError` of `np.random.choice` with
`size=2, replace=False`), so the failure propagates whenever at least one
pair is drawn (`pop_size ≥ 1`), in particular on an all-failed pool; with
`pop_size = 0` the draw loop body never runs and selection returns the
empty list without error. -/
theorem C4_selection_needs_two_successes (sampler : ℕ → ℕ × ℕ) (pop_size : ℕ)
    (population : List Ind) (pool : List Ind)
    (hpool : filterExecSuccess population = some pool) :
    (2 ≤ pool.length →
      ∃ sel, random_select sampler pop_size population = Except.ok sel ∧
        sel.length = 2 * pop_size ∧
        ∀ k, k < pop_size →
          ∃ i j, i < pool.length ∧ j < pool.length ∧ i ≠ j ∧
            sel.getD (2 * k) Ind.dummy = pool.getD i Ind.dummy ∧
            sel.getD (2 * k + 1) Ind.dummy = pool.getD j Ind.dummy) ∧
    (pool.length < 2 → 0 < pop_size → random_select sampler pop_size population =
      Except.error PyErr.valueError) ∧
    (random_select sampler 0 population = Except.ok []) := by
  have hrs : random_select sampler pop_size population =
      randomSelectLoop sampler pool (List.range pop_size) := by
    unfold random_select
    rw [hpool]
  refine ⟨?_, ?_, ?_⟩
  · intro h2
    rw [hrs, randomSelectLoop_ok sampler pool (by omega) (List.range pop_size)]
    refine ⟨_, rfl, ?_, ?_⟩
    · exact (range_bind_pairs Ind.dummy
        (fun k => pool.getD (samplePairIdx (sampler k).1 (sampler k).2 pool.length).1 Ind.dummy)
        (fun k => pool.getD (samplePairIdx (sampler k).1 (sampler k).2 pool.length).2 Ind.dummy)
        pop_size).1
    · intro k hk
      obtain ⟨hi, hj, hij⟩ :=
        samplePairIdx_spec (sampler k).1 (sampler k).2 pool.length h2
      refine ⟨(samplePairIdx (sampler k).1 (sampler k).2 pool.length).1,
        (samplePairIdx (sampler k).1 (sampler k).2 pool.length).2, hi, hj, hij, ?_, ?_⟩
      · exact ((range_bind_pairs Ind.dummy
          (fun k => pool.getD (samplePairIdx (sampler k).1 (sampler k).2 pool.length).1 Ind.dummy)
          (fun k => pool.getD (samplePairIdx (sampler k).1 (sampler k).2 pool.length).2 Ind.dummy)
          pop_size).2 k hk).1
      · exact ((range_bind_pairs Ind.dummy
          (fun k => pool.getD (samplePairIdx (sampler k).1 (sampler k).2 pool.length).1 Ind.dummy)
          (fun k => pool.getD (samplePairIdx (sampler k).1 (sampler k).2 pool.length).2 Ind.dummy)
          pop_size).2 k hk).2
  · intro h2 hpos
    cases hr : List.range pop_size with
    | nil =>
      have h0 : pop_size = 0 := List.range_eq_nil.mp hr
      omega
    | cons k ks =>
      rw [hrs, hr, randomSelectLoop_err sampler pool h2 k ks]
  · unfold random_select
    rw [hpool]
    rfl

/-- Claim C4 witness. -/
theorem C4_witness :
    (filterExecSuccess [indC4a, indC4c, indC4b] = some [indC4a, indC4c] ∧
      2 ≤ ([indC4a, indC4c] : List Ind).length) ∧
    (∃ sel, random_select (fun k => (k, k + 1)) 2 [indC4a, indC4c, indC4b] = Except.ok sel ∧
      sel.length = 2 * 2 ∧
      ∀ k, k < 2 →
        ∃ i j, i < ([indC4a, indC4c] : List Ind).length ∧
          j < ([indC4a, indC4c] : List Ind).length ∧ i ≠ j ∧
          sel.getD (2 * k) Ind.dummy = ([indC4a, indC4c] : List Ind).getD i Ind.dummy ∧
          sel.getD (2 * k + 1) Ind.dummy = ([indC4a, indC4c] : List Ind).getD j Ind.dummy) :=
  ⟨⟨rfl, by decide⟩,
    (C4_selection_needs_two_successes (fun k => (k, k + 1)) 2 [indC4a, indC4c, indC4b]
      [indC4a, indC4c] rfl).1 (by decide)⟩

theorem pairsDescOk_false (a b : Ind) (rest : List Ind) (ha : a.description = none) :
    pairsDescOk (a :: b :: rest) = false := by
  simp [pairsDescOk, ha]

/-- Claim C10: every individual built by `response_to_individual` carries
exactly the keys `stdout_filepath`, `code_path`, `code` and `response_id` —
in particular no `description` key and none of the scoring keys; as a
consequence the crossover prompt construction, which reads both parents'
`description` keys, raises `KeyError` on any (non-empty, size-asserted)
selection pool made of such individuals, and the best-overall description
update of `update_iter` (line 236) raises `KeyError` whenever a strict
improvement makes it read the best individual's missing `description`. -/
theorem C10_no_description_key :
    (∀ (process_code : String → Option String) (iteration : ℕ) (response : String)
        (response_id : ℕ) (file_name : Option String) (ind : Ind),
      response_to_individual process_code iteration response response_id file_name
          = Except.ok ind →
      ind.description = none ∧ ind.obj = none ∧ ind.fitness = none ∧
        ind.exec_success = none ∧ ind.traceback_msg = none ∧
        ind.code = process_code response ∧ ind.response_id = response_id) ∧
    (∀ (process_code : String → Option String) (responses : ℕ → String)
        (iteration pop_size : ℕ) (population : List Ind),
      population.length = 2 * pop_size → 0 < pop_size →
      (∀ p ∈ population, p.description = none) →
      crossover process_code responses iteration pop_size population
        = Except.error PyErr.keyError) ∧
    (∀ (s : GAState) (objs : List PyFloat) (best_obj : PyFloat),
      collectObjs s.population = some objs →
      pythonMinList objs = some best_obj →
      best_obj.lt s.best_obj_overall = true →
      (s.population.getD (npArgmin objs) Ind.dummy).description = none →
      (update_iter s).2 = some PyErr.keyError) := by
  refine ⟨?_, ?_, ?_⟩
  · intro process_code iteration response response_id file_name ind h
    unfold response_to_individual at h
    cases hpc : process_code response with
    | none =>
      rw [hpc] at h
      cases h
    | some c =>
      rw [hpc] at h
      cases h
      exact ⟨rfl, rfl, rfl, rfl, rfl, rfl, rfl⟩
  · intro process_code responses iteration pop_size population hlen hpos hall
    cases population with
    | nil =>
      simp only [List.length_nil] at hlen
      omega
    | cons a t =>
      cases t with
      | nil =>
        simp only [List.length_cons, List.length_nil] at hlen
        omega
      | cons b rest =>
        have ha : a.description = none := hall a (by simp)
        unfold crossover
        rw [if_pos hlen, if_neg]
        rw [pairsDescOk_false a b rest ha]
        exact Bool.false_ne_true
  · intro s objs best_obj hco hmin hlt hd
    unfold update_iter
    rw [hco]
    dsimp only
    rw [hmin]
    dsimp only
    rw [if_pos hlt, hd]

def pcC10 : String → Option String := fun _ => some ("def priority_v2(): pass")

def indC10w : Ind :=
  { stdout_filepath := "problem_iter0_response7.txt_stdout.txt",
    code_path := "problem_iter0_code7.py",
    code := some ("def priority_v2(): pass"), response_id := 7 }

def indC10a : Ind :=
  { stdout_filepath := "problem_iter9_stdout0.txt", code_path := "problem_iter9_code0.py",
    code := some ("import p"), response_id := 0, description := none,
    obj := some (PyFloat.fin 3), fitness := some (PyFloat.fin 1), exec_success := some true,
    traceback_msg := none }

def indC10b : Ind :=
  { stdout_filepath := "problem_iter9_stdout1.txt", code_path := "problem_iter9_code1.py",
    code := some ("import q"), response_id := 1, description := none,
    obj := some (PyFloat.fin 7), fitness := some (PyFloat.fin 1), exec_success := some true,
    traceback_msg := none }

def stC10w : GAState :=
  { iteration := 2, function_evals := 6, elitist := some indC10b,
    best_obj_overall := PyFloat.inf, best_code_overall := some ("import q"),
    best_desc_overall := none, best_code_path_overall := "problem_iter9_code1.py",
    population := [indC10a], pop_size := 1, max_fe := 10, diversify := false }

/-- Claim C10 witness. -/
theorem C10_witness :
    (response_to_individual pcC10 0 ("resp") 7 none = Except.ok indC10w ∧
      ([indC10a, indC10b] : List Ind).length = 2 * 1 ∧ 0 < 1 ∧
      (∀ p ∈ ([indC10a, indC10b] : List Ind), p.description = none) ∧
      collectObjs stC10w.population = some [PyFloat.fin 3] ∧
      pythonMinList [PyFloat.fin 3] = some (PyFloat.fin 3) ∧
      (PyFloat.fin 3).lt stC10w.best_obj_overall = true ∧
      (stC10w.population.getD (npArgmin [PyFloat.fin 3]) Ind.dummy).description = none) ∧
    ((indC10w.description = none ∧ indC10w.obj = none ∧ indC10w.fitness = none ∧
        indC10w.exec_success = none ∧ indC10w.traceback_msg = none ∧
        indC10w.code = pcC10 ("resp") ∧ indC10w.response_id = 7) ∧
     (crossover pcC10 (fun _ => "x") 0 1 [indC10a, indC10b] = Except.error PyErr.keyError) ∧
     ((update_iter stC10w).2 = some PyErr.keyError)) :=
  ⟨⟨rfl, by decide, by decide, by decide, by decide, by decide, by decide, by decide⟩,
    C10_no_description_key.1 pcC10 0 ("resp") 7 none indC10w rfl,
    C10_no_description_key.2.1 pcC10 (fun _ => "x") 0 1 [indC10a, indC10b]
      (by decide) (by decide) (by decide),
    C10_no_description_key.2.2 stC10w [PyFloat.fin 3] (PyFloat.fin 3)
      (by decide) (by decide) (by decide) (by decide)⟩

def envC1exec : ExecEnv :=
  { launch := fun _ => none,
    wait := fun _ => none,
    stdoutFile := fun _ => "",
    tbFilter := filter_traceback_model }

def envC1 : EvolveEnv :=
  { process_code := fun _ => none,
    crossResponses := fun _ _ => "",
    mutResponses := fun _ _ => "",
    coin := fun _ _ => false,
    sampler := fun _ _ => (0, 0),
    exec := fun _ => envC1exec }

def indC1p : Ind :=
  { stdout_filepath := "problem_iter0_stdout2.txt", code_path := "problem_iter0_code2.py",
    code := some ("import m"), response_id := 2, description := none,
    obj := some (PyFloat.fin 5), fitness := some (PyFloat.fin 1), exec_success := some true,
    traceback_msg := none }

/-- A reachable post-`init_population` state whose function-evaluation
budget is already exhausted (`max_fe ≤ pop_size`, e.g. a run started with
`max_fe = 4` and four seed evaluations): `best_desc_overall` was never
assigned, because its only assignment (line 236) reads the missing
`description` key first. -/
def stC1 : GAState :=
  { iteration := 1, function_evals := 4, elitist := some indC1p,
    best_obj_overall := PyFloat.fin 5, best_code_overall := some ("import m"),
    best_desc_overall := none, best_code_path_overall := "problem_iter0_code2.py",
    population := [indC1p], pop_size := 4, max_fe := 4, diversify := false }

/-- Claim C1 (code bug): when the budget is exhausted, `evolve` leaves its
loop but the `return` statement reads `self.best_desc_overall`, an
attribute that no execution path ever assigns — its only assignment site
(line 236) raises `KeyError` on the right-hand side first because
individuals carry no `description` key — so Python raises `AttributeError`
instead of returning the best code, its description and its artifact path.
The second conjunct shows the bookkeeping step indeed never assigns
`best_desc_overall` as long as the population's individuals carry no
`description` key, which holds for every individual the program builds. -/
theorem C1_budget_exhaustion_raises_attribute_error :
    evolve envC1 1 stC1 = some (Except.error PyErr.attributeError) ∧
    (∀ s : GAState, (∀ ind ∈ s.population, ind.description = none) →
      (update_iter s).1.best_desc_overall = s.best_desc_overall) := by
  constructor
  · rfl
  · intro s hall
    unfold update_iter
    cases hco : collectObjs s.population with
    | none => rfl
    | some objs =>
      dsimp only
      cases hmin : pythonMinList objs with
      | none => rfl
      | some best_obj =>
        dsimp only
        have hidx : npArgmin objs < objs.length := by
          cases objs with
          | nil => simp [pythonMinList] at hmin
          | cons x xs => exact (npArgmin_getD x xs).1
        obtain ⟨hlen, hget⟩ := collectObjs_spec s.population objs hco
        have hidx' : npArgmin objs < s.population.length := by
          rw [← hlen]
          exact hidx
        have hmem : s.population.getD (npArgmin objs) Ind.dummy ∈ s.population := by
          rw [List.getD_eq_getElem s.population Ind.dummy hidx']
          exact List.getElem_mem hidx'
        have hd : (s.population.getD (npArgmin objs) Ind.dummy).description = none :=
          hall _ hmem
        by_cases hlt : best_obj.lt s.best_obj_overall
        · rw [if_pos hlt, hd]
        · rw [if_neg hlt]
          cases he : s.elitist with
          | none => rfl
          | some e =>
            dsimp only
            cases heo : e.obj with
            | none => rfl
            | some eo =>
              dsimp only
              by_cases hlt2 : best_obj.lt eo
              · rw [if_pos hlt2]
              · rw [if_neg hlt2]

/-- Claim C1 witness. -/
theorem C1_witness :
    (∀ ind ∈ stC1.population, ind.description = none) ∧
    ((update_iter stC1).1.best_desc_overall = stC1.best_desc_overall) :=
  ⟨by decide, C1_budget_exhaustion_raises_attribute_error.2 stC1 (by decide)⟩

end GA
